import Mathlib

/-!
Verification development for the ripplex event-driven state-update engine.

Each section shallowly embeds one module of the TypeScript source:

* `Router` — the FIFO event queue and sequential drain loop
  (router module: `createRouter`, `dispatch`, `processQueue`).
* `Effects` — the effect executor and its stage ordering
  (effects module: `execute`, built-in `fx` handler).
* `Events` — the interceptor-chain protocol of `handleEvent`
  (events module: before phase, after phase, effect hand-off).
* `StateM` — the state container (`createStateManager`).
* `Subs` — the subscription registry (`query`, `subscribe`,
  the unsubscribe closure, reference counts and cache eviction).

JavaScript reference identity (`Object.is`, `===`) is modelled as Lean
equality on an abstract type with decidable equality; JavaScript `Map`s
keyed by object identity are modelled as total functions from allocation
ids; thrown exceptions are modelled with `Except`; `async`/`await`
sequencing is modelled by the order of events in explicit traces.
-/

namespace Ripplex

/-! ## Router: event queue and sequential drain (router module) -/

namespace Router

/-- A queued event: event key plus payload, as pushed by `dispatch`. -/
structure QEvent (Pay : Type) where
  eventKey : String
  payload : Pay
deriving DecidableEq

/-- Router state: the `eventQueue` array and the `isProcessing` flag of
`createRouter`. -/
structure RouterState (Pay : Type) where
  eventQueue : List (QEvent Pay)
  isProcessing : Bool
deriving DecidableEq

/-- What the promise returned by `dispatch` does, per the two branches of
the source: when no drain is in progress the promise is wired to the end
of the new drain (`processQueue().then(resolve)`); otherwise the executor
calls `resolve()` at once, before the queued event is handled. -/
inductive DispatchRes where
  | startsDrain
  | resolvesImmediately
deriving DecidableEq

/-- `dispatch(eventKey, payload)` from the router module: push the event
onto the queue; start a drain only when none is in progress, otherwise
resolve the returned promise immediately. -/
def dispatch {Pay : Type} (r : RouterState Pay) (e : QEvent Pay) :
    RouterState Pay × DispatchRes :=
  (⟨r.eventQueue ++ [e], r.isProcessing⟩,
    if r.isProcessing then .resolvesImmediately else .startsDrain)

/-- State of a running drain (`processQueue`), instrumented with global
enqueue indices: each queued event carries the index at which it was
appended to the queue, `fresh` is the next free index, and `log` records
events in completion order. -/
structure DrainState (Pay : Type) where
  queue : List (Nat × QEvent Pay)
  fresh : Nat
  log : List (Nat × QEvent Pay)

/-- The drain loop of `processQueue`: while the queue is nonempty, shift
the front event and await `eventManager.handleEvent` on it; the events
dispatched during that call (`handle e`) are appended to the tail of the
same queue, tagged with fresh enqueue indices. Fuel bounds the number of
iterations; running out of fuel models an unfinished drain. -/
def drainGo {Pay : Type} (handle : QEvent Pay → List (QEvent Pay)) :
    Nat → DrainState Pay → DrainState Pay
  | 0, s => s
  | fuel + 1, s =>
    match s.queue with
    | [] => s
    | (t, e) :: q =>
      let kids := handle e
      drainGo handle fuel
        ⟨q ++ (kids.enum.map fun p => (s.fresh + p.1, p.2)),
          s.fresh + kids.length,
          s.log ++ [(t, e)]⟩

/-- Initial drain state for a queue: events tagged with their positions,
no events completed yet. -/
def initSt {Pay : Type} (evs : List (QEvent Pay)) : DrainState Pay :=
  ⟨evs.enum, evs.length, []⟩

/-- Well-tagged drain state: the queue holds the consecutive enqueue
indices starting at `a`, `fresh` is the next free index, and the log
holds exactly the indices below `a` in order. -/
def TaggedOK {Pay : Type} (s : DrainState Pay) (a : Nat) : Prop :=
  s.queue.map Prod.fst = List.range' a s.queue.length ∧
  s.fresh = a + s.queue.length ∧
  s.log.map Prod.fst = List.range a

end Router

/-! ## Effects: the effect executor stage ordering (effects module) -/

namespace Effects

/-- An observable scheduling event of `execute`: an effect handler
invocation starting, or settling (returning or throwing — failures are
caught and recorded, so a settle covers both outcomes). -/
inductive FxEv where
  | start (k : String)
  | settle (k : String)
deriving DecidableEq

/-- The key an event refers to. -/
def evKey : FxEv → String
  | .start k => k
  | .settle k => k

/-- The final effect map handed to `execute`, with the two reserved keys
split out the way the source treats them: `db` (checked against
`undefined`), the remaining `Object.entries` minus `db` and `fx`
(`others`, a `none` config standing for a `null`/`undefined` value), and
the `fx` list whose entries may be `null`. -/
structure EffMap (St Cfg : Type) where
  db : Option St
  others : List (String × Option Cfg)
  fx : Option (List (Option (String × Cfg)))

/-- The keys of the parallel stage that actually invoke a handler: a
non-`db`, non-`fx` entry runs when its config is not `null`/`undefined`
and a handler is registered (`reg`). -/
def parallelKeys {St Cfg : Type} (reg : String → Bool) (m : EffMap St Cfg) :
    List String :=
  (m.others.filter fun p => p.2.isSome && reg p.1).map Prod.fst

/-- Trace of the `db` stage: `execute` awaits the registered `db` handler
first, before anything else, when `effectMap.db` is present. -/
def dbTrace {St Cfg : Type} (reg : String → Bool) (m : EffMap St Cfg) : List FxEv :=
  if m.db.isSome && reg "db" then [.start "db", .settle "db"] else []

/-- Trace of the built-in `fx` handler: entries run strictly in order,
each awaited; `null` entries are skipped, `db` entries are rejected with
a warning, entries with no registered handler are skipped. -/
def fxTrace {Cfg : Type} (reg : String → Bool)
    (l : List (Option (String × Cfg))) : List FxEv :=
  l.flatMap fun e =>
    match e with
    | none => []
    | some (k, _) =>
      if k = "db" then [] else if reg k then [.start k, .settle k] else []

/-- Trace of the `fx` stage of `execute`: runs last, only when
`effectMap.fx` is present and the `fx` meta-handler is registered. -/
def fxStageTrace {St Cfg : Type} (reg : String → Bool) (m : EffMap St Cfg) :
    List FxEv :=
  match m.fx with
  | none => []
  | some l => if reg "fx" then fxTrace reg l else []

/-- A possible interleaving of the parallel stage (`Promise.all`): every
event belongs to one of the stage keys, and each key starts once and
settles once, the start preceding the settle. -/
def IsParallelTrace (keys : List String) (t : List FxEv) : Prop :=
  (∀ e ∈ t, ∃ k, k ∈ keys ∧ (e = .start k ∨ e = .settle k)) ∧
  (∀ k ∈ keys, t.count (.start k) = 1 ∧ t.count (.settle k) = 1 ∧
    t.indexOf (.start k) < t.indexOf (.settle k))

/-- The possible scheduling traces of `execute effectMap`: the awaited
`db` stage, then some interleaving of the parallel stage, then the
sequential `fx` stage. -/
inductive ExecTrace {St Cfg : Type} (reg : String → Bool) (m : EffMap St Cfg) :
    List FxEv → Prop where
  | intro (par : List FxEv) (hpar : IsParallelTrace (parallelKeys reg m) par) :
      ExecTrace reg m (dbTrace reg m ++ par ++ fxStageTrace reg m)

end Effects

/-! ## Events: the interceptor chain protocol of handleEvent
(events module) -/

namespace Events

/-- An interceptor: diagnostic id plus optional before and after
transforms. A transform maps the running coeffects/effects pair to a new
one, or throws (`Except.error`). All interceptors constructed by this
repository (the built-ins `path`, `debug`, `after`, `injectCofx`,
`validate`, and the two handler wrappers) spread the context and leave
`queue` and `stack` untouched, so transforms are modelled on the
coeffects/effects part of the context; `handleEvent` itself threads
`queue` and `stack` exactly as the source loop does. -/
structure Interceptor (Co Eff : Type) where
  id : String
  before : Option (Co × Eff → Except String (Co × Eff))
  after : Option (Co × Eff → Except String (Co × Eff))

/-- Result of the before phase of `handleEvent`: the final
coeffects/effects pair, the interceptors still queued when the loop
stopped, the stack of popped interceptors (oldest first — JavaScript
`push` appends), and the error if a `before` threw. -/
structure BeforeOut (Co Eff : Type) where
  ce : Co × Eff
  queue : List (Interceptor Co Eff)
  stack : List (Interceptor Co Eff)
  error : Option String

/-- Apply the `before` transform of an interceptor to the context:
`if (interceptor.before) context = interceptor.before(context)`, a throw
propagating as `Except.error`. -/
def applyBefore {Co Eff : Type} (i : Interceptor Co Eff) (ce : Co × Eff) :
    Except String (Co × Eff) :=
  match i.before with
  | none => .ok ce
  | some f => f ce

/-- Apply the `after` transform of an interceptor to the context,
likewise. -/
def applyAfter {Co Eff : Type} (i : Interceptor Co Eff) (ce : Co × Eff) :
    Except String (Co × Eff) :=
  match i.after with
  | none => .ok ce
  | some f => f ce

/-- The before phase loop: while the queue is nonempty, shift the front
interceptor, push it onto the stack, and apply its `before` (if any) to
the context; a throw stops the loop at once, keeping the remaining
queue. -/
def runBefore {Co Eff : Type} :
    Co × Eff → List (Interceptor Co Eff) → List (Interceptor Co Eff) →
    BeforeOut Co Eff
  | ce, [], stack => ⟨ce, [], stack, none⟩
  | ce, i :: q, stack =>
    match applyBefore i ce with
    | .ok ce2 => runBefore ce2 q (stack ++ [i])
    | .error e => ⟨ce, q, stack ++ [i], some e⟩

/-- Every (queue, stack) pair observable at a loop boundary of the before
phase, starting from the given context: the states of the claimed
invariant. -/
def beforeStates {Co Eff : Type} :
    Co × Eff → List (Interceptor Co Eff) → List (Interceptor Co Eff) →
    List (List (Interceptor Co Eff) × List (Interceptor Co Eff))
  | _, [], stack => [([], stack)]
  | ce, i :: q, stack =>
    (i :: q, stack) ::
      match applyBefore i ce with
      | .ok ce2 => beforeStates ce2 q (stack ++ [i])
      | .error _ => [(q, stack ++ [i])]

/-- Result of the after phase: final context, the ids of the
interceptors popped (in pop order), and the error if an `after` threw. -/
structure AfterOut (Co Eff : Type) where
  ce : Co × Eff
  visited : List String
  error : Option String

/-- The after phase loop on the reversed stack: pop the most recently
pushed interceptor and apply its `after` (if any); a throw stops the
loop. -/
def runAfterRev {Co Eff : Type} :
    Co × Eff → List (Interceptor Co Eff) → AfterOut Co Eff
  | ce, [] => ⟨ce, [], none⟩
  | ce, i :: rest =>
    match applyAfter i ce with
    | .ok ce2 =>
      let r := runAfterRev ce2 rest
      ⟨r.ce, i.id :: r.visited, r.error⟩
    | .error e => ⟨ce, [i.id], some e⟩

/-- The after phase of `handleEvent`: pops from the end of the stack
(JavaScript `pop`), i.e. walks the reversed stack. -/
def runAfter {Co Eff : Type} (ce : Co × Eff) (stack : List (Interceptor Co Eff)) :
    AfterOut Co Eff :=
  runAfterRev ce stack.reverse

/-- Observable outcome of `handleEvent` for one dispatch: resulting
state, ids of popped before-phase interceptors, ids of interceptors left
queued when the before phase stopped, ids visited by the after phase,
whether `EffectExecutor.execute` was invoked, and the recorded error. -/
structure HandleOut (St : Type) where
  state : St
  beforeVisited : List String
  remainingQueue : List String
  afterVisited : List String
  executedEffects : Bool
  error : Option String

/-- `handleEvent` of the events module: look up the chain (no handler
means warn and return), build the initial context from the current state
and payload (`mkCo`), run the before phase, then — only without a before
error — the after phase, then — only without any error — hand the final
effects to the effect executor, whose `db` effect (read off by `getDb`)
is the only way state changes. -/
def handleEvent {St Pay Co Eff : Type} (mkCo : St → Pay → Co) (emptyEff : Eff)
    (getDb : Eff → Option St) (chain : List (Interceptor Co Eff))
    (s : St) (pay : Pay) : HandleOut St :=
  if chain.isEmpty then ⟨s, [], [], [], false, none⟩
  else
    let b := runBefore (mkCo s pay, emptyEff) chain []
    match b.error with
    | some e =>
      ⟨s, b.stack.map Interceptor.id, b.queue.map Interceptor.id, [], false, some e⟩
    | none =>
      let a := runAfter b.ce b.stack
      match a.error with
      | some e =>
        ⟨s, b.stack.map Interceptor.id, [], a.visited, false, some e⟩
      | none =>
        ⟨(getDb a.ce.2).getD s, b.stack.map Interceptor.id, [], a.visited, true, none⟩

end Events

/-! ## StateM: the state container (state module, createStateManager) -/

namespace StateM

/-- State of a `createStateManager` instance: the current state value,
the pending `stateChanges` batch, and whether a notification callback is
scheduled (`rafId !== null`). -/
structure SMState (St : Type) where
  state : St
  stateChanges : List St
  rafScheduled : Bool
deriving DecidableEq

/-- `scheduleNotification`: returns early when a callback is already
scheduled, otherwise schedules one. -/
def scheduleNotification {St : Type} (s : SMState St) : SMState St :=
  if s.rafScheduled then s else { s with rafScheduled := true }

/-- `setState(newState)`: when the new value is reference-identical to
the old one (`Object.is`) nothing happens at all; otherwise the state is
replaced, the change is pushed onto the batch, and a notification is
scheduled. -/
def setState {St : Type} [DecidableEq St] (s : SMState St) (n : St) : SMState St :=
  if n = s.state then s
  else scheduleNotification
    { s with state := n, stateChanges := s.stateChanges ++ [n] }

end StateM

/-! ## Subs: the subscription registry (subscription module) -/

namespace Subs

/-- A registered subscription config: a leaf `compute`, or `deps` plus
`combine`; a throwing computation is an `Except.error`. Dependency
results are passed as-is, a missing result being `none` (JavaScript
`undefined`). -/
structure SubConfig (St Val : Type) where
  compute : Option (St → List Val → Except String Val)
  deps : Option (List String)
  combine : Option (List (Option Val) → List Val → Except String Val)

/-- Point update of a total map, modelling `Map.set` keyed by
subscription object identity (allocation id). -/
def upd {A : Type} (m : Nat → A) (i : Nat) (v : A) : Nat → A :=
  fun j => if j = i then v else m j

/-- Mutable state of a `SubscriptionRegistry`: the `subscriptionCache`
(cache-key to shared `Subscription` object, the object modelled by its
allocation id), the `resultCache`, `refCounts` and `listeners` WeakMaps
(total maps over allocation ids; entries of evicted ids become
unreachable because a fresh id is allocated on re-creation), and the
allocator for fresh ids. The cache key `key + JSON.stringify(params)` is
modelled by the pair itself. -/
structure SubRegState (St Val : Type) where
  subscriptionCache : List ((String × List Val) × Nat)
  resultCache : Nat → Option (St × Val)
  refCounts : Nat → Int
  listeners : Nat → List Nat
  nextId : Nat

/-- Association-list lookup for the subscription cache (`Map.get`). -/
def lookupSC {Val : Type} [DecidableEq Val]
    (c : List ((String × List Val) × Nat)) (k : String × List Val) : Option Nat :=
  (c.find? fun p => decide (p.1 = k)).map Prod.snd

/-- `getSubscription(key, params)`: return the shared object for the
cache key, creating it (with zero reference count and no listeners) when
absent. -/
def getSubscription {St Val : Type} [DecidableEq Val] (R : SubRegState St Val)
    (key : String) (params : List Val) : Nat × SubRegState St Val :=
  match lookupSC R.subscriptionCache (key, params) with
  | some sid => (sid, R)
  | none =>
    (R.nextId,
      { R with
        subscriptionCache := R.subscriptionCache ++ [((key, params), R.nextId)],
        refCounts := upd R.refCounts R.nextId 0,
        listeners := upd R.listeners R.nextId [],
        nextId := R.nextId + 1 })

/-- Outcome of one `query` call: the result (`none` is the `undefined`
sentinel), the updated registry, the number of compute/combine
invocations actually performed (the side-effect counter of the spec),
and the errors routed to the error handler. -/
structure QueryOut (St Val : Type) where
  result : Option Val
  reg : SubRegState St Val
  computeCalls : Nat
  errors : List String

/-- Outcome of resolving a dependency list. -/
structure DepsOut (St Val : Type) where
  results : List (Option Val)
  reg : SubRegState St Val
  computeCalls : Nat
  errors : List String

/-- `config.deps.map(depKey => this.query(state, depKey, [], onError))`:
query each dependency in order, threading the registry and summing the
instrumentation. -/
def queryDeps {St Val : Type}
    (q : SubRegState St Val → String → QueryOut St Val) :
    SubRegState St Val → List String → DepsOut St Val
  | R, [] => ⟨[], R, 0, []⟩
  | R, d :: ds =>
    let o := q R d
    let rest := queryDeps q o.reg ds
    ⟨o.result :: rest.results, rest.reg,
      o.computeCalls + rest.computeCalls, o.errors ++ rest.errors⟩

/-- `query(state, key, params)` of the subscription registry. An
unregistered key reports an error and returns `undefined`. Otherwise
resolve or create the subscription object; a cache entry whose stored
state is reference-identical to the argument is returned as-is.
Otherwise compute: a leaf calls `compute`; a derived subscription
queries each dependency (with empty params) and calls `combine`; a
throw is routed to the error handler and the previously cached result
(read before computing) is the fallback, else `undefined`, with no cache
write. On success the `(state, result)` pair is cached. Fuel bounds the
dependency recursion (the source recurses unboundedly and would not
terminate on a cyclic graph); exhaustion is flagged as an error. -/
def query {St Val : Type} [DecidableEq St] [DecidableEq Val]
    (subs : String → Option (SubConfig St Val)) :
    Nat → SubRegState St Val → St → String → List Val → QueryOut St Val
  | 0, R, _, _, _ => ⟨none, R, 0, ["fuel-exhausted"]⟩
  | fuel + 1, R, state, key, params =>
    match subs key with
    | none => ⟨none, R, 0, ["not-registered"]⟩
    | some cfg =>
      let sr := getSubscription R key params
      let sid := sr.1
      let R1 := sr.2
      let cached := R1.resultCache sid
      if cached.map Prod.fst = some state then
        ⟨cached.map Prod.snd, R1, 0, []⟩
      else
        match cfg.compute with
        | some f =>
          match f state params with
          | .ok r =>
            ⟨some r,
              { R1 with resultCache := upd R1.resultCache sid (some (state, r)) },
              1, []⟩
          | .error e => ⟨cached.map Prod.snd, R1, 1, [e]⟩
        | none =>
          match cfg.deps, cfg.combine with
          | some ds, some g =>
            let dr := queryDeps (fun R2 d => query subs fuel R2 state d []) R1 ds
            match g dr.results params with
            | .ok r =>
              ⟨some r,
                { dr.reg with
                  resultCache := upd dr.reg.resultCache sid (some (state, r)) },
                dr.computeCalls + 1, dr.errors⟩
            | .error e =>
              ⟨cached.map Prod.snd, dr.reg, dr.computeCalls + 1,
                dr.errors ++ [e]⟩
          | _, _ => ⟨none, R1, 0, ["invalid-config"]⟩

/-- `Set.add`: listeners are a set, adding an existing callback is a
no-op. Callbacks are modelled by identity (`Nat`). -/
def addListener (l : List Nat) (cb : Nat) : List Nat :=
  if cb ∈ l then l else l ++ [cb]

/-- Outcome of `subscribe`: updated registry, the subscription object,
the result delivered to the callback, and the instrumentation of the
initial computation. -/
structure SubscribeOut (St Val : Type) where
  reg : SubRegState St Val
  sid : Nat
  result : Option Val
  computeCalls : Nat
  errors : List String

/-- `subscribe(state, key, params, callback)`: resolve or create the
instance, increment its reference count, compute and deliver an
immediate result via `query`, and register the callback as a
listener. -/
def subscribe {St Val : Type} [DecidableEq St] [DecidableEq Val]
    (subs : String → Option (SubConfig St Val)) (fuel : Nat)
    (R : SubRegState St Val) (state : St) (key : String) (params : List Val)
    (cb : Nat) : SubscribeOut St Val :=
  let sr := getSubscription R key params
  let sid := sr.1
  let R1 := sr.2
  let R2 := { R1 with refCounts := upd R1.refCounts sid (R1.refCounts sid + 1) }
  let q := query subs fuel R2 state key params
  let R3 := { q.reg with
    listeners := upd q.reg.listeners sid (addListener (q.reg.listeners sid) cb) }
  ⟨R3, sid, q.result, q.computeCalls, q.errors⟩

/-- The unsubscribe closure returned by `subscribe`, capturing the
subscription object `sid`, the callback and the cache key: remove the
listener, clamp-decrement the reference count (`Math.max(0, count - 1)`),
and when the count reached zero with no listeners left, delete the cache
key from the subscription cache. -/
def unsubscribe {St Val : Type} [DecidableEq Val] (sid cb : Nat) (key : String)
    (params : List Val) (R : SubRegState St Val) : SubRegState St Val :=
  let l2 := (R.listeners sid).erase cb
  let newCount := max 0 (R.refCounts sid - 1)
  let R1 := { R with
    listeners := upd R.listeners sid l2,
    refCounts := upd R.refCounts sid newCount }
  if newCount ≤ 0 ∧ l2 = [] then
    { R1 with subscriptionCache :=
        R1.subscriptionCache.filter fun p => !decide (p.1 = (key, params)) }
  else R1

end Subs

end Ripplex

/-! ## Theorems -/

namespace Ripplex

namespace Router

theorem drainGo_tagged {Pay : Type} (handle : QEvent Pay → List (QEvent Pay)) :
    ∀ (fuel : Nat) (s : DrainState Pay) (a : Nat), TaggedOK s a →
      ∃ b, TaggedOK (drainGo handle fuel s) b := by
  intro fuel
  induction fuel with
  | zero => exact fun s a h => ⟨a, h⟩
  | succ n ih =>
    rintro ⟨queue, fresh, log⟩ a ⟨h1, h2, h3⟩
    cases queue with
    | nil => exact ⟨a, h1, h2, h3⟩
    | cons te q =>
      obtain ⟨t, e⟩ := te
      simp only [List.map_cons, List.length_cons, List.range'_succ] at h1 h2
      obtain ⟨ht, hq⟩ := List.cons.injEq .. ▸ h1
      simp only [drainGo]
      refine ih _ (a + 1) ⟨?_, ?_, ?_⟩
      · have hkids : ((handle e).enum.map fun p => (fresh + p.1, p.2)).map Prod.fst
            = List.range' fresh (handle e).length := by
          simp only [List.map_map]
          have : (Prod.fst ∘ fun p : Nat × QEvent Pay => (fresh + p.1, p.2))
              = (fun i => fresh + i) ∘ Prod.fst := rfl
          rw [this, ← List.map_map, List.enum_map_fst, ← List.range'_eq_map_range]
        have hfresh : fresh = (a + 1) + q.length := by omega
        rw [List.map_append, hq, hkids, hfresh]
        have h4 := List.range'_append (a + 1) q.length (handle e).length 1
        simp only [Nat.one_mul, List.length_append, List.length_map, List.enum_length] at h4 ⊢
        rw [h4]
        congr 1
        omega
      · simp only [List.length_append, List.length_map, List.enum_length]
        omega
      · simp only [List.map_append, h3, List.map_cons, List.map_nil, ht,
          ← List.range_succ]

theorem drainGo_log_mono {Pay : Type} (handle : QEvent Pay → List (QEvent Pay)) :
    ∀ (fuel : Nat) (s : DrainState Pay) (x : Nat × QEvent Pay),
      x ∈ s.log → x ∈ (drainGo handle fuel s).log := by
  intro fuel
  induction fuel with
  | zero => exact fun s x h => h
  | succ n ih =>
    rintro ⟨queue, fresh, log⟩ x hx
    cases queue with
    | nil => exact hx
    | cons te q =>
      obtain ⟨t, e⟩ := te
      simp only [drainGo]
      exact ih _ x (by simp [hx])

theorem drainGo_mem_log {Pay : Type} (handle : QEvent Pay → List (QEvent Pay)) :
    ∀ (fuel : Nat) (s : DrainState Pay) (x : Nat × QEvent Pay),
      x ∈ s.queue → (drainGo handle fuel s).queue = [] →
      x ∈ (drainGo handle fuel s).log := by
  intro fuel
  induction fuel with
  | zero =>
    intro s x hx hq
    rw [drainGo] at hq
    simp [hq] at hx
  | succ n ih =>
    rintro ⟨queue, fresh, log⟩ x hx hq
    cases queue with
    | nil => simp at hx
    | cons te q =>
      obtain ⟨t, e⟩ := te
      simp only [drainGo] at hq ⊢
      rcases List.mem_cons.mp hx with h | h
      · exact h ▸ drainGo_log_mono handle n _ _ (by simp)
      · exact ih _ x (by simp [h]) hq

/-- Claim C1, counterexample. In the source, `dispatch` called while a
drain is in progress (`isProcessing = true`) takes the `else` branch and
calls `resolve()` at once: the returned promise resolves immediately even
though the event this call enqueued is still sitting unprocessed in the
queue. This refutes the claim that the promise resolves only after the
enqueued event has been fully processed. -/
theorem dispatch_during_drain_resolves_early :
    dispatch (⟨[⟨"first", 0⟩], true⟩ : RouterState Nat) ⟨"second", 1⟩
      = (⟨[⟨"first", 0⟩, ⟨"second", 1⟩], true⟩, .resolvesImmediately) ∧
    (⟨"second", 1⟩ : QEvent Nat)
      ∈ (dispatch (⟨[⟨"first", 0⟩], true⟩ : RouterState Nat) ⟨"second", 1⟩).1.eventQueue := by
  exact ⟨rfl, by simp [dispatch]⟩

/-- Claim C1 (amended). Only a `dispatch` that finds no drain in progress
wires its promise to the completion of the drain it starts; for such a
call, by the time the promise resolves (the drain loop has emptied the
queue), the event this call enqueued — and everything queued before it —
has been fully processed, appearing in the completion log. A dispatch
made during an in-progress drain resolves immediately instead
(see the counterexample). -/
theorem dispatch_resolution {Pay : Type} (r : RouterState Pay) (e : QEvent Pay)
    (handle : QEvent Pay → List (QEvent Pay)) (fuel : Nat)
    (hidle : r.isProcessing = false)
    (hdone : (drainGo handle fuel (initSt (dispatch r e).1.eventQueue)).queue = []) :
    (dispatch r e).2 = .startsDrain ∧
    (r.eventQueue.length, e)
      ∈ (drainGo handle fuel (initSt (dispatch r e).1.eventQueue)).log ∧
    ∀ x ∈ (initSt (dispatch r e).1.eventQueue).queue,
      x ∈ (drainGo handle fuel (initSt (dispatch r e).1.eventQueue)).log := by
  refine ⟨by simp [dispatch, hidle], ?_, ?_⟩
  · apply drainGo_mem_log handle fuel _ _ _ hdone
    simp [initSt, dispatch, List.enum_append]
  · exact fun x hx => drainGo_mem_log handle fuel _ x hx hdone

/-- Claim C1 witness: a concrete idle router with one queued event; the
dispatch starts the drain and both events appear in the completion log. -/
theorem dispatch_resolution_witness :
    (dispatch (⟨[⟨"first", 0⟩], false⟩ : RouterState Nat) ⟨"second", 1⟩).2 = .startsDrain ∧
    ((1 : Nat), (⟨"second", 1⟩ : QEvent Nat))
      ∈ (drainGo (fun _ => []) 2
          (initSt (dispatch (⟨[⟨"first", 0⟩], false⟩ : RouterState Nat) ⟨"second", 1⟩).1.eventQueue)).log ∧
    ∀ x ∈ (initSt (dispatch (⟨[⟨"first", 0⟩], false⟩ : RouterState Nat) ⟨"second", 1⟩).1.eventQueue).queue,
      x ∈ (drainGo (fun _ => []) 2
          (initSt (dispatch (⟨[⟨"first", 0⟩], false⟩ : RouterState Nat) ⟨"second", 1⟩).1.eventQueue)).log :=
  dispatch_resolution ⟨[⟨"first", 0⟩], false⟩ ⟨"second", 1⟩ (fun _ => []) 2 rfl rfl

/-- Claim C5. The drain loop completes events strictly in global enqueue
order: at every moment the completion log lists exactly the enqueue
indices `0, 1, 2, ...` in order, where events dispatched from inside an
earlier event get fresh tail indices. Moreover a `dispatch` made while
the drain is running only appends the event to the tail of the same
queue and starts no second, nested drain. -/
theorem events_processed_in_enqueue_order {Pay : Type}
    (handle : QEvent Pay → List (QEvent Pay)) (evs : List (QEvent Pay)) (fuel : Nat) :
    ((drainGo handle fuel (initSt evs)).log).map Prod.fst
      = List.range ((drainGo handle fuel (initSt evs)).log.length) ∧
    ∀ (r : RouterState Pay) (e : QEvent Pay), r.isProcessing = true →
      dispatch r e = (⟨r.eventQueue ++ [e], true⟩, .resolvesImmediately) := by
  constructor
  · obtain ⟨b, _, _, h3⟩ := drainGo_tagged handle fuel (initSt evs) 0
      ⟨by simp [initSt, List.enum_map_fst, List.range_eq_range'],
        by simp [initSt], by simp [initSt]⟩
    have hb : b = (drainGo handle fuel (initSt evs)).log.length := by
      have := congrArg List.length h3
      simpa using this.symm
    rw [h3, hb]
  · intro r e hproc
    simp [dispatch, hproc]

/-- Claim C5 witness: a concrete drain of one event completes it in
order, and a dispatch against a busy router appends to the queue tail
and resolves immediately. -/
theorem events_processed_in_enqueue_order_witness :
    ((drainGo (fun _ => []) 2 (initSt [(⟨"first", 0⟩ : QEvent Nat)])).log).map Prod.fst
      = List.range ((drainGo (fun _ => []) 2 (initSt [(⟨"first", 0⟩ : QEvent Nat)])).log.length) ∧
    dispatch (⟨[], true⟩ : RouterState Nat) ⟨"second", 1⟩
      = (⟨[⟨"second", 1⟩], true⟩, .resolvesImmediately) :=
  ⟨(events_processed_in_enqueue_order (fun _ => []) [⟨"first", 0⟩] 2).1,
    (events_processed_in_enqueue_order (fun _ => []) [⟨"first", 0⟩] 2).2 ⟨[], true⟩ ⟨"second", 1⟩ rfl⟩

end Router

namespace Effects

theorem getElem_append_left_of_not_mem_right {α : Type} {l1 l2 : List α} {i : Nat}
    {x : α} (h : (l1 ++ l2)[i]? = some x) (hx : x ∉ l2) :
    i < l1.length ∧ l1[i]? = some x := by
  rcases Nat.lt_or_ge i l1.length with hi | hi
  · exact ⟨hi, by rwa [List.getElem?_append_left hi] at h⟩
  · rw [List.getElem?_append_right hi] at h
    obtain ⟨hlt, he⟩ := List.getElem?_eq_some.mp h
    exact absurd (he ▸ List.getElem_mem hlt) hx

theorem getElem_append_right_of_not_mem_left {α : Type} {l1 l2 : List α} {i : Nat}
    {x : α} (h : (l1 ++ l2)[i]? = some x) (hx : x ∉ l1) :
    l1.length ≤ i ∧ l2[i - l1.length]? = some x := by
  rcases Nat.lt_or_ge i l1.length with hi | hi
  · rw [List.getElem?_append_left hi] at h
    obtain ⟨hlt, he⟩ := List.getElem?_eq_some.mp h
    exact absurd (he ▸ List.getElem_mem hlt) hx
  · exact ⟨hi, by rwa [List.getElem?_append_right hi] at h⟩

theorem mem_parallelKeys_sub {St Cfg : Type} (reg : String → Bool)
    (m : EffMap St Cfg) {k : String} (hk : k ∈ parallelKeys reg m) :
    k ∈ m.others.map Prod.fst := by
  obtain ⟨p, hp, hpk⟩ := List.mem_map.mp hk
  exact List.mem_map.mpr ⟨p, List.mem_of_mem_filter hp, hpk⟩

theorem mem_partrace_key {keys : List String} {par : List FxEv}
    (hpar : IsParallelTrace keys par) {e : FxEv} (he : e ∈ par) :
    evKey e ∈ keys := by
  obtain ⟨k, hk, he2⟩ := hpar.1 e he
  rcases he2 with rfl | rfl <;> exact hk

/-- Claim C2. In any scheduling trace of `execute` on an effect map
holding a `db` effect, other effects, and `fx = [[a, _], [b, _]]`
(handlers registered, `a`, `b` distinct fresh keys): the `db` handler
settles before any event of any other key; every handler of the parallel
stage settles before the `fx` stage starts its first entry; and within
`fx`, entry `a` settles before entry `b` starts. -/
theorem effects_execute_stage_order {St Cfg : Type} (reg : String → Bool)
    (m : EffMap St Cfg) (t : List FxEv) (a b : String) (ca cb : Cfg)
    (ht : ExecTrace reg m t)
    (hdb : m.db.isSome = true) (hregdb : reg "db" = true)
    (hfx : m.fx = some [some (a, ca), some (b, cb)]) (hregfx : reg "fx" = true)
    (ha : a ≠ "db") (hb : b ≠ "db") (hra : reg a = true) (hrb : reg b = true)
    (hab : a ≠ b)
    (hdbo : "db" ∉ m.others.map Prod.fst)
    (hao : a ∉ m.others.map Prod.fst) (hbo : b ∉ m.others.map Prod.fst) :
    (FxEv.settle "db" ∈ t ∧ ∀ (i j : Nat) (x : FxEv), t[i]? = some (FxEv.settle "db") →
        t[j]? = some x → evKey x ≠ "db" → i < j) ∧
    (∀ (i j : Nat) (k : String), k ∈ parallelKeys reg m → t[i]? = some (FxEv.settle k) →
        t[j]? = some (FxEv.start a) → i < j) ∧
    (FxEv.start a ∈ t ∧ FxEv.settle a ∈ t ∧ FxEv.start b ∈ t ∧
      ∀ (i j : Nat), t[i]? = some (FxEv.settle a) → t[j]? = some (FxEv.start b) → i < j) := by
  cases ht with
  | intro par hpar =>
    have hD : dbTrace reg m = [.start "db", .settle "db"] := by
      simp [dbTrace, hdb, hregdb]
    have hF : fxStageTrace reg m = [.start a, .settle a, .start b, .settle b] := by
      simp [fxStageTrace, hfx, hregfx, fxTrace, ha, hb, hra, hrb]
    rw [hD, hF]
    have hkey_not_par : ∀ (e : FxEv), evKey e ∉ m.others.map Prod.fst → e ∉ par := by
      intro e hke he
      exact hke (mem_parallelKeys_sub reg m (mem_partrace_key hpar he))
    have hdbs_par : FxEv.settle "db" ∉ par := hkey_not_par _ hdbo
    have hsa_par : FxEv.settle a ∉ par := hkey_not_par _ hao
    have hta_par : FxEv.start a ∉ par := hkey_not_par _ hao
    have htb_par : FxEv.start b ∉ par := hkey_not_par _ hbo
    have hdbs_F : FxEv.settle "db"
        ∉ [FxEv.start a, .settle a, .start b, .settle b] := by
      simp [Ne.symm ha, Ne.symm hb]
    refine ⟨⟨?_, ?_⟩, ?_, ?_, ?_, ?_, ?_⟩
    · simp
    · intro i j x hi hj hxk
      rw [List.append_assoc] at hi hj
      have h1 := getElem_append_left_of_not_mem_right hi
        (by simp only [List.mem_append]; exact fun h => h.elim hdbs_par hdbs_F)
      have h2 := getElem_append_right_of_not_mem_left hj (by
        intro hmem
        rcases List.mem_cons.mp hmem with h | hmem2
        · exact hxk (by rw [h]; rfl)
        · rcases List.mem_cons.mp hmem2 with h | h3
          · exact hxk (by rw [h]; rfl)
          · cases h3)
      have : ([FxEv.start "db", .settle "db"] : List FxEv).length = 2 := rfl
      omega
    · intro i j k hk hi hj
      have hkdb : k ≠ "db" := fun h =>
        hdbo (h ▸ mem_parallelKeys_sub reg m hk)
      have hka : k ≠ a := fun h => hao (h ▸ mem_parallelKeys_sub reg m hk)
      have hkb : k ≠ b := fun h => hbo (h ▸ mem_parallelKeys_sub reg m hk)
      have h1 := getElem_append_left_of_not_mem_right hi (by simp [hka, hkb])
      have h2 := getElem_append_right_of_not_mem_left hj (by
        intro hmem
        rcases List.mem_append.mp hmem with hmem1 | hmem2
        · rcases List.mem_cons.mp hmem1 with h | hmem3
          · exact ha (FxEv.start.inj h)
          · rcases List.mem_cons.mp hmem3 with h | h3
            · exact FxEv.noConfusion h
            · cases h3
        · exact hta_par hmem2)
      omega
    · simp
    · simp
    · simp
    · intro i j hi hj
      have hsaD : FxEv.settle a ∉ ([FxEv.start "db", .settle "db"] : List FxEv) := by
        simp [ha]
      have htbD : FxEv.start b ∉ ([FxEv.start "db", .settle "db"] : List FxEv) := by
        simp [hb]
      have h1 := getElem_append_right_of_not_mem_left hi (by
        simp only [List.mem_append]
        exact fun h => h.elim (fun h => hsaD h) hsa_par)
      have h2 := getElem_append_right_of_not_mem_left hj (by
        simp only [List.mem_append]
        exact fun h => h.elim (fun h => htbD h) htb_par)
      have hFa : ∀ i', ([FxEv.start a, .settle a, .start b, .settle b] :
          List FxEv)[i']? = some (FxEv.settle a) → i' = 1 := by
        intro i' h
        match i' with
        | 0 => simp at h
        | 1 => rfl
        | 2 => simp at h
        | 3 => simp at h; exact absurd h.symm hab
        | (n + 4) => simp at h
      have hFb : ∀ i', ([FxEv.start a, .settle a, .start b, .settle b] :
          List FxEv)[i']? = some (FxEv.start b) → i' = 2 := by
        intro i' h
        match i' with
        | 0 => simp at h; exact absurd h hab
        | 1 => simp at h
        | 2 => rfl
        | 3 => simp at h
        | (n + 4) => simp at h
      have e1 := hFa _ h1.2
      have e2 := hFb _ h2.2
      omega

/-- Claim C2 witness: a concrete effect map with a `db` effect, one
parallel `dispatch` effect and `fx = [[alpha, _], [beta, _]]`, all
handlers registered, and one concrete scheduling trace. -/
theorem effects_execute_stage_order_witness :
    ExecTrace (fun _ => true)
      (⟨some 7, [("dispatch", some 1)], some [some ("alpha", 2), some ("beta", 3)]⟩ :
        EffMap Nat Nat)
      [FxEv.start "db", FxEv.settle "db", FxEv.start "dispatch",
        FxEv.settle "dispatch", FxEv.start "alpha", FxEv.settle "alpha",
        FxEv.start "beta", FxEv.settle "beta"] ∧
    ((FxEv.settle "db" ∈ [FxEv.start "db", FxEv.settle "db", FxEv.start "dispatch",
        FxEv.settle "dispatch", FxEv.start "alpha", FxEv.settle "alpha",
        FxEv.start "beta", FxEv.settle "beta"] ∧
      ∀ (i j : Nat) (x : FxEv),
        [FxEv.start "db", FxEv.settle "db", FxEv.start "dispatch",
        FxEv.settle "dispatch", FxEv.start "alpha", FxEv.settle "alpha",
        FxEv.start "beta", FxEv.settle "beta"][i]? = some (FxEv.settle "db") →
        [FxEv.start "db", FxEv.settle "db", FxEv.start "dispatch",
        FxEv.settle "dispatch", FxEv.start "alpha", FxEv.settle "alpha",
        FxEv.start "beta", FxEv.settle "beta"][j]? = some x → evKey x ≠ "db" → i < j) ∧
    (∀ (i j : Nat) (k : String),
        k ∈ parallelKeys (fun _ => true)
          (⟨some 7, [("dispatch", some 1)], some [some ("alpha", 2), some ("beta", 3)]⟩ :
            EffMap Nat Nat) →
        [FxEv.start "db", FxEv.settle "db", FxEv.start "dispatch",
        FxEv.settle "dispatch", FxEv.start "alpha", FxEv.settle "alpha",
        FxEv.start "beta", FxEv.settle "beta"][i]? = some (FxEv.settle k) →
        [FxEv.start "db", FxEv.settle "db", FxEv.start "dispatch",
        FxEv.settle "dispatch", FxEv.start "alpha", FxEv.settle "alpha",
        FxEv.start "beta", FxEv.settle "beta"][j]? = some (FxEv.start "alpha") → i < j) ∧
    (FxEv.start "alpha" ∈ [FxEv.start "db", FxEv.settle "db", FxEv.start "dispatch",
        FxEv.settle "dispatch", FxEv.start "alpha", FxEv.settle "alpha",
        FxEv.start "beta", FxEv.settle "beta"] ∧
      FxEv.settle "alpha" ∈ [FxEv.start "db", FxEv.settle "db", FxEv.start "dispatch",
        FxEv.settle "dispatch", FxEv.start "alpha", FxEv.settle "alpha",
        FxEv.start "beta", FxEv.settle "beta"] ∧
      FxEv.start "beta" ∈ [FxEv.start "db", FxEv.settle "db", FxEv.start "dispatch",
        FxEv.settle "dispatch", FxEv.start "alpha", FxEv.settle "alpha",
        FxEv.start "beta", FxEv.settle "beta"] ∧
      ∀ (i j : Nat),
        [FxEv.start "db", FxEv.settle "db", FxEv.start "dispatch",
        FxEv.settle "dispatch", FxEv.start "alpha", FxEv.settle "alpha",
        FxEv.start "beta", FxEv.settle "beta"][i]? = some (FxEv.settle "alpha") →
        [FxEv.start "db", FxEv.settle "db", FxEv.start "dispatch",
        FxEv.settle "dispatch", FxEv.start "alpha", FxEv.settle "alpha",
        FxEv.start "beta", FxEv.settle "beta"][j]? = some (FxEv.start "beta") → i < j)) := by
  have ht : ExecTrace (fun _ => true)
      (⟨some 7, [("dispatch", some 1)], some [some ("alpha", 2), some ("beta", 3)]⟩ :
        EffMap Nat Nat)
      [FxEv.start "db", FxEv.settle "db", FxEv.start "dispatch",
        FxEv.settle "dispatch", FxEv.start "alpha", FxEv.settle "alpha",
        FxEv.start "beta", FxEv.settle "beta"] :=
    ExecTrace.intro [FxEv.start "dispatch", FxEv.settle "dispatch"]
      (by unfold IsParallelTrace; exact ⟨by decide, by decide⟩)
  exact ⟨ht, effects_execute_stage_order (fun _ => true) _ _ "alpha" "beta" 2 3 ht
    rfl rfl rfl rfl (by decide) (by decide) rfl rfl (by decide) (by decide)
    (by decide) (by decide)⟩

end Effects

namespace Events

theorem beforeStates_inv {Co Eff : Type} :
    ∀ (q st : List (Interceptor Co Eff)) (ce : Co × Eff),
      ∀ p ∈ beforeStates ce q st, p.2 ++ p.1 = st ++ q := by
  intro q
  induction q with
  | nil =>
    intro st ce p hp
    simp only [beforeStates, List.mem_singleton] at hp
    subst hp
    simp
  | cons i qt ih =>
    intro st ce p hp
    simp only [beforeStates] at hp
    rcases List.mem_cons.mp hp with rfl | hp2
    · rfl
    · cases hab : applyBefore i ce with
      | ok ce2 =>
        rw [hab] at hp2
        have := ih (st ++ [i]) ce2 p hp2
        simpa using this
      | error e =>
        rw [hab] at hp2
        simp only [List.mem_singleton] at hp2
        subst hp2
        simp

theorem runBefore_inv {Co Eff : Type} :
    ∀ (q st : List (Interceptor Co Eff)) (ce : Co × Eff),
      (runBefore ce q st).stack ++ (runBefore ce q st).queue = st ++ q := by
  intro q
  induction q with
  | nil => intro st ce; simp [runBefore]
  | cons i qt ih =>
    intro st ce
    simp only [runBefore]
    cases hab : applyBefore i ce with
    | ok ce2 =>
      have := ih (st ++ [i]) ce2
      simpa using this
    | error e => simp

theorem runBefore_ok {Co Eff : Type} :
    ∀ (q st : List (Interceptor Co Eff)) (ce : Co × Eff),
      (runBefore ce q st).error = none →
      (runBefore ce q st).stack = st ++ q ∧ (runBefore ce q st).queue = [] := by
  intro q
  induction q with
  | nil => intro st ce _; simp [runBefore]
  | cons i qt ih =>
    intro st ce he
    simp only [runBefore] at he ⊢
    cases hab : applyBefore i ce with
    | ok ce2 =>
      rw [hab] at he
      have := ih (st ++ [i]) ce2 he
      simpa using this
    | error e => rw [hab] at he; simp at he

theorem runAfterRev_ok {Co Eff : Type} :
    ∀ (l : List (Interceptor Co Eff)) (ce : Co × Eff),
      (runAfterRev ce l).error = none →
      (runAfterRev ce l).visited = l.map Interceptor.id := by
  intro l
  induction l with
  | nil => intro ce _; simp [runAfterRev]
  | cons i rest ih =>
    intro ce he
    simp only [runAfterRev] at he ⊢
    cases hab : applyAfter i ce with
    | ok ce2 =>
      rw [hab] at he
      simp only [hab, List.map_cons, List.cons.injEq, true_and]
      exact ih ce2 he
    | error e => rw [hab] at he; simp at he

/-- Claim C3, counterexample. For the two-interceptor chain
`[a-interceptor, b-interceptor]`, after the first loop iteration of the
before phase the context holds `queue = [b]`, `stack = [a]`, and
`queue ++ reverse(stack) = [b, a]` is not the original chain `[a, b]`:
the claimed form of the invariant fails at an interior point (the form
that holds is `stack ++ queue = chain`, proved in the amended
theorem). -/
theorem before_invariant_counterexample :
    (([⟨"b", none, none⟩], [⟨"a", none, none⟩]) :
        List (Interceptor Unit Unit) × List (Interceptor Unit Unit))
      ∈ beforeStates ((), ())
        [(⟨"a", none, none⟩ : Interceptor Unit Unit), ⟨"b", none, none⟩] [] ∧
    ([(⟨"b", none, none⟩ : Interceptor Unit Unit)]
        ++ [(⟨"a", none, none⟩ : Interceptor Unit Unit)].reverse)
      ≠ [(⟨"a", none, none⟩ : Interceptor Unit Unit), ⟨"b", none, none⟩] := by
  constructor
  · simp [beforeStates, applyBefore]
  · intro h
    exact absurd (congrArg (List.map Interceptor.id) h) (by decide)

/-- Claim C3 (amended). At every point of the before phase,
`stack ++ queue` (stack in push order, most recent last) equals the
original chain; when the before phase completes without error the stack
holds the full chain in run order; and when the after phase then also
completes without error it visits the interceptors in the exact reverse
of the before-phase execution order. -/
theorem interceptor_chain_invariant {Co Eff : Type}
    (chain : List (Interceptor Co Eff)) (ce : Co × Eff) :
    (∀ p ∈ beforeStates ce chain [], p.2 ++ p.1 = chain) ∧
    ((runBefore ce chain []).error = none →
      (runBefore ce chain []).stack = chain) ∧
    ((runBefore ce chain []).error = none →
      (runAfter (runBefore ce chain []).ce (runBefore ce chain []).stack).error
          = none →
      (runAfter (runBefore ce chain []).ce (runBefore ce chain []).stack).visited
          = (chain.map Interceptor.id).reverse) := by
  refine ⟨?_, ?_, ?_⟩
  · intro p hp
    simpa using beforeStates_inv chain [] ce p hp
  · intro he
    simpa using (runBefore_ok chain [] ce he).1
  · intro he ha
    rw [runAfter] at ha ⊢
    rw [runAfterRev_ok _ _ ha, (by simpa using (runBefore_ok chain [] ce he).1 :
      (runBefore ce chain []).stack = chain), List.map_reverse]

/-- Claim C3 witness: a concrete two-interceptor chain over trivial
contexts; both phases complete without error (discharged by computation)
and the after order is the reverse of the before order. -/
theorem interceptor_chain_invariant_witness :
    (∀ p ∈ beforeStates ((), ())
        [(⟨"a", some fun ce => .ok ce, some fun ce => .ok ce⟩ :
            Interceptor Unit Unit), ⟨"b", none, none⟩] [],
      p.2 ++ p.1 = [(⟨"a", some fun ce => .ok ce, some fun ce => .ok ce⟩ :
            Interceptor Unit Unit), ⟨"b", none, none⟩]) ∧
    (runBefore ((), ())
        [(⟨"a", some fun ce => .ok ce, some fun ce => .ok ce⟩ :
            Interceptor Unit Unit), ⟨"b", none, none⟩] []).stack
      = [(⟨"a", some fun ce => .ok ce, some fun ce => .ok ce⟩ :
            Interceptor Unit Unit), ⟨"b", none, none⟩] ∧
    (runAfter (runBefore ((), ())
        [(⟨"a", some fun ce => .ok ce, some fun ce => .ok ce⟩ :
            Interceptor Unit Unit), ⟨"b", none, none⟩] []).ce
      (runBefore ((), ())
        [(⟨"a", some fun ce => .ok ce, some fun ce => .ok ce⟩ :
            Interceptor Unit Unit), ⟨"b", none, none⟩] []).stack).visited
      = (([(⟨"a", some fun ce => .ok ce, some fun ce => .ok ce⟩ :
            Interceptor Unit Unit), ⟨"b", none, none⟩]).map
          Interceptor.id).reverse :=
  ⟨(interceptor_chain_invariant
      [⟨"a", some fun ce => .ok ce, some fun ce => .ok ce⟩, ⟨"b", none, none⟩]
      ((), ())).1,
    (interceptor_chain_invariant
      [⟨"a", some fun ce => .ok ce, some fun ce => .ok ce⟩, ⟨"b", none, none⟩]
      ((), ())).2.1 rfl,
    (interceptor_chain_invariant
      [⟨"a", some fun ce => .ok ce, some fun ce => .ok ce⟩, ⟨"b", none, none⟩]
      ((), ())).2.2 rfl rfl⟩

/-- Claim C4. If the before phase of `handleEvent` stops with an error
(some interceptor threw from `before`), then the after phase never runs,
`EffectExecutor.execute` is not invoked, the state observed after
`handleEvent` equals the state before the dispatch, no interceptor still
in the queue had its `before` run (their ids are disjoint from the
popped ones), and in particular when the thrower is not the last chain
element the terminal handler (registered last) is still in the queue and
never ran. -/
theorem before_throw_halts {St Pay Co Eff : Type} (mkCo : St → Pay → Co)
    (emptyEff : Eff) (getDb : Eff → Option St)
    (chain : List (Interceptor Co Eff)) (s : St) (pay : Pay) (e : String)
    (hne : chain.isEmpty = false)
    (hb : (runBefore (mkCo s pay, emptyEff) chain []).error = some e)
    (hnd : (chain.map Interceptor.id).Nodup) :
    (handleEvent mkCo emptyEff getDb chain s pay).state = s ∧
    (handleEvent mkCo emptyEff getDb chain s pay).afterVisited = [] ∧
    (handleEvent mkCo emptyEff getDb chain s pay).executedEffects = false ∧
    (handleEvent mkCo emptyEff getDb chain s pay).error = some e ∧
    (∀ x ∈ (handleEvent mkCo emptyEff getDb chain s pay).remainingQueue,
      x ∉ (handleEvent mkCo emptyEff getDb chain s pay).beforeVisited) ∧
    (∀ hI : Interceptor Co Eff, chain.getLast? = some hI →
      (handleEvent mkCo emptyEff getDb chain s pay).remainingQueue ≠ [] →
      hI.id ∈ (handleEvent mkCo emptyEff getDb chain s pay).remainingQueue ∧
      hI.id ∉ (handleEvent mkCo emptyEff getDb chain s pay).beforeVisited) := by
  have hH : handleEvent mkCo emptyEff getDb chain s pay
      = ⟨s, (runBefore (mkCo s pay, emptyEff) chain []).stack.map Interceptor.id,
          (runBefore (mkCo s pay, emptyEff) chain []).queue.map Interceptor.id,
          [], false, some e⟩ := by
    simp only [handleEvent, hne, Bool.false_eq_true, if_false, hb]
  rw [hH]
  have hinv := runBefore_inv chain [] (mkCo s pay, emptyEff)
  simp only [List.nil_append] at hinv
  have hmap : (runBefore (mkCo s pay, emptyEff) chain []).stack.map Interceptor.id
      ++ (runBefore (mkCo s pay, emptyEff) chain []).queue.map Interceptor.id
      = chain.map Interceptor.id := by
    rw [← List.map_append, hinv]
  have hnd2 := hmap ▸ hnd
  have hdisj := (List.nodup_append.mp hnd2).2.2
  refine ⟨rfl, rfl, rfl, rfl, ?_, ?_⟩
  · intro x hx hx2
    exact hdisj hx2 hx
  · intro hI hlast hq
    have hqne : (runBefore (mkCo s pay, emptyEff) chain []).queue ≠ [] := by
      intro h0
      exact hq (by simp [h0])
    have hsome := List.getLast?_isSome.mpr hqne
    obtain ⟨y, hy⟩ := Option.isSome_iff_exists.mp hsome
    have hych : chain.getLast? = some y := by
      rw [← hinv, List.getLast?_append, hy, Option.or_some]
    have hIy : hI = y := by
      rw [hlast] at hych
      exact Option.some.inj hych
    have hmem : hI ∈ (runBefore (mkCo s pay, emptyEff) chain []).queue := by
      rw [hIy]
      exact List.mem_of_mem_getLast? (by rw [hy]; rfl)
    have hmem2 : hI.id
        ∈ (runBefore (mkCo s pay, emptyEff) chain []).queue.map Interceptor.id :=
      List.mem_map.mpr ⟨hI, hmem, rfl⟩
    exact ⟨hmem2, fun hin => hdisj hin hmem2⟩

/-- Claim C4 witness: a two-interceptor chain whose first `before` throws;
the terminal handler wrapper never runs, the after phase is empty, no
effects execute and the state stays 5. -/
theorem before_throw_halts_witness :
    (handleEvent (fun s (_ : Nat) => s) (none : Option Nat) (fun x => x)
      [(⟨"boom", some fun _ => .error "kaput", none⟩ :
          Interceptor Nat (Option Nat)),
        ⟨"db-handler", some fun ce => .ok (ce.1, some 42), none⟩] 5 0).state = 5 ∧
    (handleEvent (fun s (_ : Nat) => s) (none : Option Nat) (fun x => x)
      [(⟨"boom", some fun _ => .error "kaput", none⟩ :
          Interceptor Nat (Option Nat)),
        ⟨"db-handler", some fun ce => .ok (ce.1, some 42), none⟩] 5 0).afterVisited
      = [] ∧
    (handleEvent (fun s (_ : Nat) => s) (none : Option Nat) (fun x => x)
      [(⟨"boom", some fun _ => .error "kaput", none⟩ :
          Interceptor Nat (Option Nat)),
        ⟨"db-handler", some fun ce => .ok (ce.1, some 42), none⟩] 5 0).executedEffects
      = false ∧
    (handleEvent (fun s (_ : Nat) => s) (none : Option Nat) (fun x => x)
      [(⟨"boom", some fun _ => .error "kaput", none⟩ :
          Interceptor Nat (Option Nat)),
        ⟨"db-handler", some fun ce => .ok (ce.1, some 42), none⟩] 5 0).error
      = some "kaput" ∧
    (∀ x ∈ (handleEvent (fun s (_ : Nat) => s) (none : Option Nat) (fun x => x)
      [(⟨"boom", some fun _ => .error "kaput", none⟩ :
          Interceptor Nat (Option Nat)),
        ⟨"db-handler", some fun ce => .ok (ce.1, some 42), none⟩] 5 0).remainingQueue,
      x ∉ (handleEvent (fun s (_ : Nat) => s) (none : Option Nat) (fun x => x)
      [(⟨"boom", some fun _ => .error "kaput", none⟩ :
          Interceptor Nat (Option Nat)),
        ⟨"db-handler", some fun ce => .ok (ce.1, some 42), none⟩] 5 0).beforeVisited) ∧
    (∀ hI : Interceptor Nat (Option Nat),
      ([(⟨"boom", some fun _ => .error "kaput", none⟩ :
          Interceptor Nat (Option Nat)),
        ⟨"db-handler", some fun ce => .ok (ce.1, some 42), none⟩]).getLast? = some hI →
      (handleEvent (fun s (_ : Nat) => s) (none : Option Nat) (fun x => x)
        [(⟨"boom", some fun _ => .error "kaput", none⟩ :
            Interceptor Nat (Option Nat)),
          ⟨"db-handler", some fun ce => .ok (ce.1, some 42), none⟩] 5 0).remainingQueue
        ≠ [] →
      hI.id ∈ (handleEvent (fun s (_ : Nat) => s) (none : Option Nat) (fun x => x)
        [(⟨"boom", some fun _ => .error "kaput", none⟩ :
            Interceptor Nat (Option Nat)),
          ⟨"db-handler", some fun ce => .ok (ce.1, some 42), none⟩] 5 0).remainingQueue ∧
      hI.id ∉ (handleEvent (fun s (_ : Nat) => s) (none : Option Nat) (fun x => x)
        [(⟨"boom", some fun _ => .error "kaput", none⟩ :
            Interceptor Nat (Option Nat)),
          ⟨"db-handler", some fun ce => .ok (ce.1, some 42), none⟩] 5 0).beforeVisited) :=
  before_throw_halts (fun s (_ : Nat) => s) (none : Option Nat) (fun x => x)
    [⟨"boom", some fun _ => .error "kaput", none⟩,
      ⟨"db-handler", some fun ce => .ok (ce.1, some 42), none⟩] 5 0 "kaput"
    rfl rfl (by decide)

end Events

namespace StateM

/-- Claim C8. `setState` with a reference-identical value is a complete
no-op: the stored state, the pending change batch, and the notification
flag are all untouched. Only a reference-distinct value replaces the
state, queues the change, and schedules a notification. -/
theorem setState_reference_noop {St : Type} [DecidableEq St]
    (s : SMState St) (n : St) :
    (n = s.state → setState s n = s) ∧
    (n ≠ s.state →
      (setState s n).state = n ∧
      (setState s n).stateChanges = s.stateChanges ++ [n] ∧
      (setState s n).rafScheduled = true) := by
  constructor
  · intro h
    simp [setState, h]
  · intro h
    cases hr : s.rafScheduled <;>
      simp [setState, h, scheduleNotification, hr]

/-- Claim C8 witness: over `Nat` states, setting 0 on state 0 changes
nothing; setting 1 replaces the state, queues it, and schedules the
notification. -/
theorem setState_reference_noop_witness :
    setState (⟨0, [], false⟩ : SMState Nat) 0 = ⟨0, [], false⟩ ∧
    ((setState (⟨0, [], false⟩ : SMState Nat) 1).state = 1 ∧
      (setState (⟨0, [], false⟩ : SMState Nat) 1).stateChanges = [] ++ [1] ∧
      (setState (⟨0, [], false⟩ : SMState Nat) 1).rafScheduled = true) :=
  ⟨(setState_reference_noop ⟨0, [], false⟩ 0).1 rfl,
    (setState_reference_noop ⟨0, [], false⟩ 1).2 (by decide)⟩

end StateM

namespace Subs

theorem upd_same {A : Type} (m : Nat → A) (i : Nat) (v : A) : upd m i v i = v := by
  simp [upd]

theorem upd_ne {A : Type} (m : Nat → A) (i : Nat) (v : A) {j : Nat} (h : j ≠ i) :
    upd m i v j = m j := by
  simp [upd, h]

theorem upd_upd {A : Type} (m : Nat → A) (i : Nat) (v w : A) :
    upd (upd m i v) i w = upd m i w := by
  funext j
  by_cases h : j = i
  · subst h; simp [upd]
  · simp [upd, h]

theorem upd_self {A : Type} (m : Nat → A) (i : Nat) : upd m i (m i) = m := by
  funext j
  by_cases h : j = i
  · subst h; simp [upd]
  · simp [upd, h]

theorem lookupSC_append_self {Val : Type} [DecidableEq Val]
    {c : List ((String × List Val) × Nat)} {k : String × List Val}
    (h : lookupSC c k = none) (sid : Nat) :
    lookupSC (c ++ [(k, sid)]) k = some sid := by
  have hf : c.find? (fun p => decide (p.1 = k)) = none := by
    simpa [lookupSC] using h
  simp [lookupSC, List.find?_append, hf]

theorem lookupSC_append_of_some {Val : Type} [DecidableEq Val]
    {c : List ((String × List Val) × Nat)} {k : String × List Val} {sid : Nat}
    (h : lookupSC c k = some sid) (l : List ((String × List Val) × Nat)) :
    lookupSC (c ++ l) k = some sid := by
  unfold lookupSC at h ⊢
  cases hf : c.find? (fun p => decide (p.1 = k)) with
  | none => rw [hf] at h; simp at h
  | some p =>
    rw [hf] at h
    rw [List.find?_append, hf]
    simpa using h

theorem filter_of_lookupSC_none {Val : Type} [DecidableEq Val]
    {c : List ((String × List Val) × Nat)} {k : String × List Val}
    (h : lookupSC c k = none) :
    (c.filter fun p => !decide (p.1 = k)) = c := by
  have hf : ∀ x ∈ c, ¬(decide (x.1 = k)) = true := by
    simpa [lookupSC, List.find?_eq_none] using h
  rw [List.filter_eq_self]
  intro a ha
  simp [hf a ha]

theorem getSubscription_found {St Val : Type} [DecidableEq Val]
    {R : SubRegState St Val} {key : String} {params : List Val} {sid : Nat}
    (h : lookupSC R.subscriptionCache (key, params) = some sid) :
    getSubscription R key params = (sid, R) := by
  simp [getSubscription, h]

theorem getSubscription_fresh {St Val : Type} [DecidableEq Val]
    {R : SubRegState St Val} {key : String} {params : List Val}
    (h : lookupSC R.subscriptionCache (key, params) = none) :
    getSubscription R key params
      = (R.nextId,
        { R with
          subscriptionCache :=
            R.subscriptionCache ++ [((key, params), R.nextId)],
          refCounts := upd R.refCounts R.nextId 0,
          listeners := upd R.listeners R.nextId [],
          nextId := R.nextId + 1 }) := by
  simp [getSubscription, h]

theorem getSubscription_lookup {St Val : Type} [DecidableEq Val]
    (R : SubRegState St Val) (key : String) (params : List Val) :
    lookupSC (getSubscription R key params).2.subscriptionCache (key, params)
      = some (getSubscription R key params).1 := by
  cases h : lookupSC R.subscriptionCache (key, params) with
  | some sid => rw [getSubscription_found h]; exact h
  | none => rw [getSubscription_fresh h]; exact lookupSC_append_self h R.nextId

theorem queryDeps_pres {St Val : Type}
    (q : SubRegState St Val → String → QueryOut St Val)
    (P : SubRegState St Val → Prop)
    (hq : ∀ R d, P R → P (q R d).reg) :
    ∀ (ds : List String) (R : SubRegState St Val), P R →
      P (queryDeps q R ds).reg := by
  intro ds
  induction ds with
  | nil => intro R h; exact h
  | cons d dt ih =>
    intro R h
    simp only [queryDeps]
    exact ih _ (hq R d h)

theorem query_lookupSC_mono {St Val : Type} [DecidableEq St] [DecidableEq Val]
    (subs : String → Option (SubConfig St Val)) (k : String × List Val)
    (sid : Nat) :
    ∀ (fuel : Nat) (R : SubRegState St Val) (state : St) (key : String)
      (params : List Val),
      lookupSC R.subscriptionCache k = some sid →
      lookupSC ((query subs fuel R state key params).reg).subscriptionCache k
        = some sid := by
  intro fuel
  induction fuel with
  | zero => intro R state key params h; exact h
  | succ n ih =>
    intro R state key params h
    have hG : lookupSC
        ((getSubscription R key params).2).subscriptionCache k = some sid := by
      cases hl : lookupSC R.subscriptionCache (key, params) with
      | some sid2 => rw [getSubscription_found hl]; exact h
      | none => rw [getSubscription_fresh hl]; exact lookupSC_append_of_some h _
    cases hk : subs key with
    | none => simp only [query, hk]; exact h
    | some cfg =>
      simp only [query, hk]
      split
      · exact hG
      · split
        · split
          · exact hG
          · exact hG
        · split
          · split
            · exact queryDeps_pres _ _ (fun R2 d h2 => ih R2 state d [] h2) _ _ hG
            · exact queryDeps_pres _ _ (fun R2 d h2 => ih R2 state d [] h2) _ _ hG
          · exact hG

theorem query_ok_cache {St Val : Type} [DecidableEq St] [DecidableEq Val]
    (subs : String → Option (SubConfig St Val)) (fuel : Nat)
    (R : SubRegState St Val) (state : St) (key : String) (params : List Val)
    (herr : (query subs (fuel + 1) R state key params).errors = []) :
    ∃ r, (query subs (fuel + 1) R state key params).result = some r ∧
      lookupSC
        ((query subs (fuel + 1) R state key params).reg).subscriptionCache
        (key, params) = some (getSubscription R key params).1 ∧
      ((query subs (fuel + 1) R state key params).reg).resultCache
        (getSubscription R key params).1 = some (state, r) := by
  cases hk : subs key with
  | none => simp [query, hk] at herr
  | some cfg =>
    have hmiss : ∀ _ : ((getSubscription R key params).2.resultCache
          (getSubscription R key params).1).map Prod.fst ≠ some state,
        ∃ r, (query subs (fuel + 1) R state key params).result = some r ∧
          lookupSC
            ((query subs (fuel + 1) R state key params).reg).subscriptionCache
            (key, params) = some (getSubscription R key params).1 ∧
          ((query subs (fuel + 1) R state key params).reg).resultCache
            (getSubscription R key params).1 = some (state, r) := by
      intro hfalse
      cases hcmp : cfg.compute with
      | some f =>
        cases hf : f state params with
        | ok r =>
          refine ⟨r, ?_, ?_, ?_⟩
          · simp [query, hk, hfalse, hcmp, hf]
          · simpa [query, hk, hfalse, hcmp, hf]
              using getSubscription_lookup R key params
          · simp [query, hk, hfalse, hcmp, hf, upd_same]
        | error e => simp [query, hk, hfalse, hcmp, hf] at herr
      | none =>
        cases hd : cfg.deps with
        | none => simp [query, hk, hfalse, hcmp, hd] at herr
        | some ds =>
          cases hcomb : cfg.combine with
          | none => simp [query, hk, hfalse, hcmp, hd, hcomb] at herr
          | some g =>
            cases hg : g (queryDeps
                (fun R2 d => query subs fuel R2 state d [])
                (getSubscription R key params).2 ds).results params with
            | ok r =>
              refine ⟨r, ?_, ?_, ?_⟩
              · simp [query, hk, hfalse, hcmp, hd, hcomb, hg]
              · simp only [query, hk, hfalse, hcmp, hd, hcomb, hg]
                exact queryDeps_pres _ _
                  (fun R2 d h2 =>
                    query_lookupSC_mono subs _ _ fuel R2 state d [] h2)
                  ds _ (getSubscription_lookup R key params)
              · simp [query, hk, hfalse, hcmp, hd, hcomb, hg, upd_same]
            | error e =>
              simp [query, hk, hfalse, hcmp, hd, hcomb, hg] at herr
    cases hc : (getSubscription R key params).2.resultCache
        (getSubscription R key params).1 with
    | some entry =>
      obtain ⟨st0, r0⟩ := entry
      by_cases hst : st0 = state
      · subst hst
        refine ⟨r0, ?_, ?_, ?_⟩
        · simp [query, hk, hc]
        · simpa [query, hk, hc] using getSubscription_lookup R key params
        · simp [query, hk, hc]
      · exact hmiss (by simp [hc, hst])
    | none => exact hmiss (by simp [hc])

/-- Claim C6, counterexample. For a registered subscription whose compute
function throws, the first `query` writes no cache entry, so a second
`query` against the reference-identical state invokes the compute
function again: the side-effect counter of the second call is 1, not 0.
The claimed "no recomputation on the second call" therefore does not
hold for every registered subscription. -/
theorem query_recompute_after_throw_counterexample :
    (query
      (fun k => if k = "bad" then
        some ⟨some fun _ _ => .error "boom", none, none⟩ else none) 1
      (query
        (fun k => if k = "bad" then
          some ⟨some fun _ _ => .error "boom", none, none⟩ else none) 1
        (⟨[], fun _ => none, fun _ => 0, fun _ => [], 0⟩ :
          SubRegState Nat Nat) 0 "bad" []).reg
      0 "bad" []).computeCalls ≠ 0 := by
  decide

/-- Claim C6 (amended). When a `query` completes without routing any
error (in particular its computation does not throw), its result is
cached under the state reference, and a second `query` with the
reference-identical state returns the same result, performs no
compute/combine invocation, and leaves the registry untouched: cache
validity is state-reference identity. When the computation throws, no
cache entry is written and a repeated call recomputes (see the
counterexample). -/
theorem query_cached_by_reference {St Val : Type} [DecidableEq St]
    [DecidableEq Val] (subs : String → Option (SubConfig St Val)) (n m : Nat)
    (R : SubRegState St Val) (state : St) (key : String) (params : List Val)
    (herr : (query subs (n + 1) R state key params).errors = []) :
    query subs (m + 1) (query subs (n + 1) R state key params).reg
        state key params
      = ⟨(query subs (n + 1) R state key params).result,
          (query subs (n + 1) R state key params).reg, 0, []⟩ := by
  obtain ⟨r, hres, hlook, hcache⟩ := query_ok_cache subs n R state key params herr
  cases hk : subs key with
  | none => simp [query, hk] at herr
  | some cfg =>
    set Q := query subs (n + 1) R state key params with hQ
    simp only [query, hk]
    rw [getSubscription_found hlook]
    simp [hcache, hres]

/-- Claim C6 witness: a concrete leaf subscription over `Nat` doubling
the state; the first query computes 6 for state 3, the second returns it
from the cache with zero compute invocations. -/
theorem query_cached_by_reference_witness :
    (query
      (fun k => if k = "doubled" then
        some ⟨some fun s _ => .ok (s * 2), none, none⟩ else none) 1
      (⟨[], fun _ => none, fun _ => 0, fun _ => [], 0⟩ :
        SubRegState Nat Nat) 3 "doubled" []).errors = [] ∧
    query
      (fun k => if k = "doubled" then
        some ⟨some fun s _ => .ok (s * 2), none, none⟩ else none) 1
      (query
        (fun k => if k = "doubled" then
          some ⟨some fun s _ => .ok (s * 2), none, none⟩ else none) 1
        (⟨[], fun _ => none, fun _ => 0, fun _ => [], 0⟩ :
          SubRegState Nat Nat) 3 "doubled" []).reg 3 "doubled" []
      = ⟨(query
          (fun k => if k = "doubled" then
            some ⟨some fun s _ => .ok (s * 2), none, none⟩ else none) 1
          (⟨[], fun _ => none, fun _ => 0, fun _ => [], 0⟩ :
            SubRegState Nat Nat) 3 "doubled" []).result,
          (query
          (fun k => if k = "doubled" then
            some ⟨some fun s _ => .ok (s * 2), none, none⟩ else none) 1
          (⟨[], fun _ => none, fun _ => 0, fun _ => [], 0⟩ :
            SubRegState Nat Nat) 3 "doubled" []).reg, 0, []⟩ :=
  ⟨rfl,
    query_cached_by_reference
      (fun k => if k = "doubled" then
        some ⟨some fun s _ => .ok (s * 2), none, none⟩ else none) 0 0
      ⟨[], fun _ => none, fun _ => 0, fun _ => [], 0⟩ 3 "doubled" [] rfl⟩

/-- Claim C7. When the compute (or, for a derived subscription, the
combine) function throws during `query`, the error is routed to the
error handler (it appears in the routed-errors list) and the call
returns the previously cached result when one exists, else the
`undefined` sentinel (`none`). The model returns a total `QueryOut`, so
the thrown error never escapes `query` as a language-level exception by
construction. -/
theorem query_error_returns_previous {St Val : Type} [DecidableEq St]
    [DecidableEq Val] (subs : String → Option (SubConfig St Val)) (fuel : Nat)
    (R : SubRegState St Val) (state : St) (key : String) (params : List Val)
    (cfg : SubConfig St Val) (e : String)
    (hcfg : subs key = some cfg)
    (hmiss : ((getSubscription R key params).2.resultCache
        (getSubscription R key params).1).map Prod.fst ≠ some state)
    (hthrow :
      (∃ f, cfg.compute = some f ∧ f state params = .error e) ∨
      (cfg.compute = none ∧ ∃ ds g, cfg.deps = some ds ∧ cfg.combine = some g ∧
        g (queryDeps (fun R2 d => query subs fuel R2 state d [])
            (getSubscription R key params).2 ds).results params = .error e)) :
    (query subs (fuel + 1) R state key params).result
      = ((getSubscription R key params).2.resultCache
          (getSubscription R key params).1).map Prod.snd ∧
    e ∈ (query subs (fuel + 1) R state key params).errors := by
  rcases hthrow with ⟨f, hcmp, hf⟩ | ⟨hcmp, ds, g, hd, hcomb, hg⟩
  · constructor <;> simp [query, hcfg, hmiss, hcmp, hf]
  · constructor <;> simp [query, hcfg, hmiss, hcmp, hd, hcomb, hg]

/-- Claim C7 witness: a subscription whose compute throws, queried at
state 6 while the cache holds the result 99 computed for the older state
5; the call reports the error and falls back to 99. -/
theorem query_error_returns_previous_witness :
    (query
      (fun k => if k = "bad" then
        some ⟨some fun _ _ => .error "boom", none, none⟩ else none) 1
      (⟨[(("bad", []), 0)], fun i => if i = 0 then some (5, 99) else none,
        fun _ => 1, fun _ => [], 1⟩ : SubRegState Nat Nat) 6 "bad" []).result
      = ((getSubscription
          (⟨[(("bad", []), 0)], fun i => if i = 0 then some (5, 99) else none,
            fun _ => 1, fun _ => [], 1⟩ : SubRegState Nat Nat) "bad" []).2.resultCache
          (getSubscription
          (⟨[(("bad", []), 0)], fun i => if i = 0 then some (5, 99) else none,
            fun _ => 1, fun _ => [], 1⟩ : SubRegState Nat Nat) "bad" []).1).map
          Prod.snd ∧
    "boom" ∈ (query
      (fun k => if k = "bad" then
        some ⟨some fun _ _ => .error "boom", none, none⟩ else none) 1
      (⟨[(("bad", []), 0)], fun i => if i = 0 then some (5, 99) else none,
        fun _ => 1, fun _ => [], 1⟩ : SubRegState Nat Nat) 6 "bad" []).errors :=
  query_error_returns_previous
    (fun k => if k = "bad" then
      some ⟨some fun _ _ => .error "boom", none, none⟩ else none) 0
    ⟨[(("bad", []), 0)], fun i => if i = 0 then some (5, 99) else none,
      fun _ => 1, fun _ => [], 1⟩ 6 "bad" []
    ⟨some fun _ _ => .error "boom", none, none⟩ "boom" rfl (by decide)
    (Or.inl ⟨fun _ _ => .error "boom", rfl, rfl⟩)

theorem subscribe_fresh_leaf {St Val : Type} [DecidableEq St] [DecidableEq Val]
    (subs : String → Option (SubConfig St Val)) (fuel : Nat)
    (R : SubRegState St Val) (state : St) (key : String) (params : List Val)
    (cb : Nat) (cfg : SubConfig St Val)
    (f : St → List Val → Except String Val)
    (hcfg : subs key = some cfg) (hleaf : cfg.compute = some f)
    (hfree : lookupSC R.subscriptionCache (key, params) = none)
    (hclean1 : R.resultCache R.nextId = none) :
    (subscribe subs (fuel + 1) R state key params cb).sid = R.nextId ∧
    (subscribe subs (fuel + 1) R state key params cb).computeCalls = 1 ∧
    (subscribe subs (fuel + 1) R state key params cb).reg.subscriptionCache
      = R.subscriptionCache ++ [((key, params), R.nextId)] ∧
    (subscribe subs (fuel + 1) R state key params cb).reg.refCounts R.nextId
      = 1 ∧
    (subscribe subs (fuel + 1) R state key params cb).reg.listeners R.nextId
      = [cb] ∧
    (subscribe subs (fuel + 1) R state key params cb).reg.nextId
      = R.nextId + 1 ∧
    (∀ i, i ≠ R.nextId →
      (subscribe subs (fuel + 1) R state key params cb).reg.resultCache i
        = R.resultCache i) := by
  have hL : lookupSC
      (R.subscriptionCache ++ [((key, params), R.nextId)]) (key, params)
      = some R.nextId := lookupSC_append_self hfree R.nextId
  cases hf : f state params with
  | ok r =>
    refine ⟨?_, ?_, ?_, ?_, ?_, ?_, ?_⟩
    · simp [subscribe, getSubscription, hfree]
    · simp [subscribe, query, getSubscription, hfree, hL, hcfg, hleaf, hf,
        hclean1, upd_same]
    · simp [subscribe, query, getSubscription, hfree, hL, hcfg, hleaf, hf,
        hclean1, upd_same]
    · simp [subscribe, query, getSubscription, hfree, hL, hcfg, hleaf, hf,
        hclean1, upd_same]
    · simp [subscribe, query, getSubscription, hfree, hL, hcfg, hleaf, hf,
        hclean1, upd_same, addListener]
    · simp [subscribe, query, getSubscription, hfree, hL, hcfg, hleaf, hf,
        hclean1, upd_same]
    · intro i hi
      simp [subscribe, query, getSubscription, hfree, hL, hcfg, hleaf, hf,
        hclean1, upd_same, upd_ne _ _ _ hi]
  | error e =>
    refine ⟨?_, ?_, ?_, ?_, ?_, ?_, ?_⟩
    · simp [subscribe, getSubscription, hfree]
    · simp [subscribe, query, getSubscription, hfree, hL, hcfg, hleaf, hf,
        hclean1, upd_same]
    · simp [subscribe, query, getSubscription, hfree, hL, hcfg, hleaf, hf,
        hclean1, upd_same]
    · simp [subscribe, query, getSubscription, hfree, hL, hcfg, hleaf, hf,
        hclean1, upd_same]
    · simp [subscribe, query, getSubscription, hfree, hL, hcfg, hleaf, hf,
        hclean1, upd_same, addListener]
    · simp [subscribe, query, getSubscription, hfree, hL, hcfg, hleaf, hf,
        hclean1, upd_same]
    · intro i hi
      simp [subscribe, query, getSubscription, hfree, hL, hcfg, hleaf, hf,
        hclean1, upd_same, upd_ne _ _ _ hi]

/-- Claim C9. Starting from a registry with no instance for
`(key, params)` (and clean fresh ids), `subscribe` then immediately
calling the returned unsubscribe closure brings the reference count of
the instance to zero and, with no listeners remaining, evicts the
instance from the lookup table; a subsequent `subscribe` for the same
`(key, params)` allocates a fresh instance (a new object id) and runs
the compute function again from scratch. -/
theorem subscribe_unsubscribe_evicts {St Val : Type} [DecidableEq St]
    [DecidableEq Val] (subs : String → Option (SubConfig St Val))
    (fuel fuel2 : Nat) (R : SubRegState St Val) (state state2 : St)
    (key : String) (params : List Val) (cb cb2 : Nat)
    (cfg : SubConfig St Val) (f : St → List Val → Except String Val)
    (hcfg : subs key = some cfg) (hleaf : cfg.compute = some f)
    (hfree : lookupSC R.subscriptionCache (key, params) = none)
    (hclean : ∀ i, R.nextId ≤ i → R.resultCache i = none) :
    (subscribe subs (fuel + 1) R state key params cb).sid = R.nextId ∧
    (unsubscribe R.nextId cb key params
        (subscribe subs (fuel + 1) R state key params cb).reg).refCounts
      R.nextId = 0 ∧
    lookupSC (unsubscribe R.nextId cb key params
        (subscribe subs (fuel + 1) R state key params cb).reg).subscriptionCache
      (key, params) = none ∧
    (subscribe subs (fuel2 + 1)
        (unsubscribe R.nextId cb key params
          (subscribe subs (fuel + 1) R state key params cb).reg)
        state2 key params cb2).sid = R.nextId + 1 ∧
    (subscribe subs (fuel2 + 1)
        (unsubscribe R.nextId cb key params
          (subscribe subs (fuel + 1) R state key params cb).reg)
        state2 key params cb2).computeCalls = 1 := by
  obtain ⟨ha, hb, hc, hd, he, hnext, hg⟩ :=
    subscribe_fresh_leaf subs fuel R state key params cb cfg f hcfg hleaf
      hfree (hclean _ le_rfl)
  set R1 := (subscribe subs (fuel + 1) R state key params cb).reg with hR1
  have hUN : unsubscribe R.nextId cb key params R1
      = { R1 with
          subscriptionCache := R.subscriptionCache,
          refCounts := upd R1.refCounts R.nextId 0,
          listeners := upd R1.listeners R.nextId [] } := by
    simp only [unsubscribe, he, hd]
    norm_num
    simp [hc, List.filter_append, filter_of_lookupSC_none hfree]
  have hfree2 : lookupSC ({ R1 with
      subscriptionCache := R.subscriptionCache,
      refCounts := upd R1.refCounts R.nextId 0,
      listeners := upd R1.listeners R.nextId [] } :
        SubRegState St Val).subscriptionCache (key, params) = none := hfree
  have hclean2 : ({ R1 with
      subscriptionCache := R.subscriptionCache,
      refCounts := upd R1.refCounts R.nextId 0,
      listeners := upd R1.listeners R.nextId [] } :
        SubRegState St Val).resultCache ({ R1 with
      subscriptionCache := R.subscriptionCache,
      refCounts := upd R1.refCounts R.nextId 0,
      listeners := upd R1.listeners R.nextId [] } :
        SubRegState St Val).nextId = none := by
    show R1.resultCache R1.nextId = none
    rw [hnext, hg _ (by omega)]
    exact hclean _ (by omega)
  obtain ⟨ha2, hb2, _, _, _, _, _⟩ :=
    subscribe_fresh_leaf subs fuel2 _ state2 key params cb2 cfg f hcfg hleaf
      hfree2 hclean2
  refine ⟨ha, ?_, ?_, ?_, ?_⟩
  · rw [hUN]
    exact upd_same _ _ _
  · rw [hUN]
    exact hfree
  · rw [hUN, ha2]
    show R1.nextId = R.nextId + 1
    exact hnext
  · rw [hUN, hb2]

/-- Claim C9 witness: one subscribe/unsubscribe round trip on a concrete
doubling subscription; the count returns to 0, the instance is evicted,
and a new subscribe allocates object id 1 and recomputes (one compute
invocation) although the state is unchanged. -/
theorem subscribe_unsubscribe_evicts_witness :
    (subscribe (fun k => if k = "doubled" then
        some ⟨some fun s _ => .ok (s * 2), none, none⟩ else none) 1 (⟨[], fun _ => none, fun _ => 0, fun _ => [], 0⟩ : SubRegState Nat Nat) 3 "doubled" [] 10).sid = (⟨[], fun _ => none, fun _ => 0, fun _ => [], 0⟩ : SubRegState Nat Nat).nextId ∧
    (unsubscribe (⟨[], fun _ => none, fun _ => 0, fun _ => [], 0⟩ : SubRegState Nat Nat).nextId 10 "doubled" []
        (subscribe (fun k => if k = "doubled" then
        some ⟨some fun s _ => .ok (s * 2), none, none⟩ else none) 1 (⟨[], fun _ => none, fun _ => 0, fun _ => [], 0⟩ : SubRegState Nat Nat) 3 "doubled" [] 10).reg).refCounts
      (⟨[], fun _ => none, fun _ => 0, fun _ => [], 0⟩ : SubRegState Nat Nat).nextId = 0 ∧
    lookupSC (unsubscribe (⟨[], fun _ => none, fun _ => 0, fun _ => [], 0⟩ : SubRegState Nat Nat).nextId 10 "doubled" []
        (subscribe (fun k => if k = "doubled" then
        some ⟨some fun s _ => .ok (s * 2), none, none⟩ else none) 1 (⟨[], fun _ => none, fun _ => 0, fun _ => [], 0⟩ : SubRegState Nat Nat) 3 "doubled" [] 10).reg).subscriptionCache
      ("doubled", []) = none ∧
    (subscribe (fun k => if k = "doubled" then
        some ⟨some fun s _ => .ok (s * 2), none, none⟩ else none) 1
        (unsubscribe (⟨[], fun _ => none, fun _ => 0, fun _ => [], 0⟩ : SubRegState Nat Nat).nextId 10 "doubled" []
          (subscribe (fun k => if k = "doubled" then
        some ⟨some fun s _ => .ok (s * 2), none, none⟩ else none) 1 (⟨[], fun _ => none, fun _ => 0, fun _ => [], 0⟩ : SubRegState Nat Nat) 3 "doubled" [] 10).reg)
        3 "doubled" [] 11).sid = (⟨[], fun _ => none, fun _ => 0, fun _ => [], 0⟩ : SubRegState Nat Nat).nextId + 1 ∧
    (subscribe (fun k => if k = "doubled" then
        some ⟨some fun s _ => .ok (s * 2), none, none⟩ else none) 1
        (unsubscribe (⟨[], fun _ => none, fun _ => 0, fun _ => [], 0⟩ : SubRegState Nat Nat).nextId 10 "doubled" []
          (subscribe (fun k => if k = "doubled" then
        some ⟨some fun s _ => .ok (s * 2), none, none⟩ else none) 1 (⟨[], fun _ => none, fun _ => 0, fun _ => [], 0⟩ : SubRegState Nat Nat) 3 "doubled" [] 10).reg)
        3 "doubled" [] 11).computeCalls = 1 :=
  subscribe_unsubscribe_evicts (fun k => if k = "doubled" then
        some ⟨some fun s _ => .ok (s * 2), none, none⟩ else none) 0 0 (⟨[], fun _ => none, fun _ => 0, fun _ => [], 0⟩ : SubRegState Nat Nat) 3 3 "doubled" [] 10 11
    ⟨some fun s _ => .ok (s * 2), none, none⟩ (fun s _ => .ok (s * 2))
    rfl rfl rfl (fun _ _ => rfl)

/-- Claim C10, counterexample. An unsubscribe closure called twice while
another reference is still held: the registry with reference count 2 for
the instance and listeners 10 and 11; the second call decrements the
still-positive count again (1 to 0), so the registry after two calls
differs from the registry after one call — repeated calls are not a
no-op in general. -/
theorem unsubscribe_double_call_counterexample :
    (unsubscribe 0 10 "k" []
        (unsubscribe 0 10 "k" []
          (⟨[(("k", []), 0)], fun _ => none, fun i => if i = 0 then 2 else 0,
            fun i => if i = 0 then [10, 11] else [], 1⟩ :
              SubRegState Nat Nat))).refCounts 0
      ≠ (unsubscribe 0 10 "k" []
          (⟨[(("k", []), 0)], fun _ => none, fun i => if i = 0 then 2 else 0,
            fun i => if i = 0 then [10, 11] else [], 1⟩ :
              SubRegState Nat Nat)).refCounts 0 := by
  decide

/-- Claim C10 (amended). The clamp `Math.max(0, count - 1)` keeps
reference counts from ever going negative, and when the instance held at
most one reference (so the first call brings its count to zero), calling
the same unsubscribe closure a second time is a no-op: the count stays
clamped at zero, the listener removal and the eviction check do nothing,
and the registry is exactly the state after the first call. An extra
call made while other references remain still decrements the count (see
the counterexample). -/
theorem unsubscribe_clamps_and_idempotent {St Val : Type} [DecidableEq Val]
    (sid cb : Nat) (key : String) (params : List Val)
    (R : SubRegState St Val) :
    (∀ i, 0 ≤ R.refCounts i →
      0 ≤ (unsubscribe sid cb key params R).refCounts i) ∧
    (R.refCounts sid ≤ 1 → (R.listeners sid).Nodup →
      unsubscribe sid cb key params (unsubscribe sid cb key params R)
        = unsubscribe sid cb key params R) := by
  constructor
  · intro i hi
    have hrc : (unsubscribe sid cb key params R).refCounts
        = upd R.refCounts sid (max 0 (R.refCounts sid - 1)) := by
      simp only [unsubscribe]
      split <;> rfl
    rw [hrc]
    by_cases h : i = sid
    · subst h; rw [upd_same]; exact le_max_left _ _
    · rw [upd_ne _ _ _ h]; exact hi
  · intro hc hnd
    have hml : cb ∉ (R.listeners sid).erase cb := hnd.not_mem_erase
    have hcnt : max 0 (R.refCounts sid - 1) = 0 :=
      max_eq_left (by omega)
    by_cases hl2 : (R.listeners sid).erase cb = []
    · have h1 : unsubscribe sid cb key params R
          = { R with
              subscriptionCache := R.subscriptionCache.filter
                fun p => !decide (p.1 = (key, params)),
              refCounts := upd R.refCounts sid 0,
              listeners := upd R.listeners sid [] } := by
        simp only [unsubscribe]
        rw [if_pos ⟨le_of_eq hcnt, hl2⟩, hcnt, hl2]
      rw [h1]
      simp only [unsubscribe, upd_same]
      rw [List.erase_nil]
      rw [if_pos ⟨by simp, rfl⟩]
      simp [upd_upd, List.filter_filter]
    · have h1 : unsubscribe sid cb key params R
          = { R with
              refCounts := upd R.refCounts sid 0,
              listeners := upd R.listeners sid
                ((R.listeners sid).erase cb) } := by
        simp only [unsubscribe]
        rw [if_neg (fun hand => hl2 hand.2), hcnt]
      rw [h1]
      simp only [unsubscribe, upd_same]
      rw [List.erase_of_not_mem hml]
      rw [if_neg (fun hand => hl2 hand.2)]
      simp [upd_upd]

/-- Claim C10 witness: a single-reference registry; counts stay
nonnegative and the double call equals the single call. -/
theorem unsubscribe_clamps_and_idempotent_witness :
    (∀ i, 0 ≤ (⟨[(("k", []), 0)], fun _ => none,
        fun i => if i = 0 then 1 else 0,
        fun i => if i = 0 then [10] else [], 1⟩ :
          SubRegState Nat Nat).refCounts i →
      0 ≤ (unsubscribe 0 10 "k" []
        (⟨[(("k", []), 0)], fun _ => none,
          fun i => if i = 0 then 1 else 0,
          fun i => if i = 0 then [10] else [], 1⟩ :
            SubRegState Nat Nat)).refCounts i) ∧
    unsubscribe 0 10 "k" []
        (unsubscribe 0 10 "k" []
          (⟨[(("k", []), 0)], fun _ => none,
            fun i => if i = 0 then 1 else 0,
            fun i => if i = 0 then [10] else [], 1⟩ :
              SubRegState Nat Nat))
      = unsubscribe 0 10 "k" []
          (⟨[(("k", []), 0)], fun _ => none,
            fun i => if i = 0 then 1 else 0,
            fun i => if i = 0 then [10] else [], 1⟩ :
              SubRegState Nat Nat) :=
  ⟨(unsubscribe_clamps_and_idempotent 0 10 "k" [] _).1,
    (unsubscribe_clamps_and_idempotent 0 10 "k" [] _).2 (by decide) (by decide)⟩

end Subs

end Ripplex
